import Mathlib

/-!
Verification of the kaamiki logging utility (src/kaamiki/utils/logging.py)
against its natural-language specification.  Python strings are modelled as
lists of characters; the formatter, stream handler and logger construction
logic are translated into executable Lean definitions below, and the spec
claims are settled as theorems about those definitions.
-/

set_option maxRecDepth 100000

namespace Kaamiki

/-- Python strings are modelled as lists of characters. -/
abbrev Str := List Char

/-- Right alignment as in a Python format spec of the form greater-than n:
pad on the left with spaces up to width n (no-op when already at least n). -/
def rjust (n : Nat) (s : Str) : Str := List.replicate (n - s.length) ' ' ++ s

/-- Left alignment: pad on the right with spaces up to width n. -/
def ljust (n : Nat) (s : Str) : Str := s ++ List.replicate (n - s.length) ' '

/-- Zero padding used by percent directives such as 03d. -/
def zfill (n : Nat) (s : Str) : Str := List.replicate (n - s.length) '0' ++ s

/-- Decimal rendering of a natural number. -/
def natStr (n : Nat) : Str := (Nat.repr n).data

/-- Boolean test that p begins s. -/
def ledBy : Str → Str → Bool
  | [], _ => true
  | _ :: _, [] => false
  | a :: as, b :: bs => a = b && ledBy as bs

/-- Index of the first occurrence of pat in s, as in Python str.find;
an empty pattern occurs at index 0. -/
def findOcc (pat : Str) : Str → Option Nat
  | [] => if pat = [] then some 0 else none
  | c :: rest =>
    if ledBy pat (c :: rest) then some 0 else (findOcc pat rest).map (· + 1)

/-- Fuelled worker for replaceAll; the fuel bounds the number of
replacement steps so that the definition is structurally recursive. -/
def replaceAllAux (pat rep : Str) : Nat → Str → Str
  | _, [] => []
  | 0, s => s
  | fuel + 1, c :: cs =>
    match findOcc pat (c :: cs) with
    | none => c :: cs
    | some i =>
      (c :: cs).take i ++ rep ++ replaceAllAux pat rep fuel ((c :: cs).drop (i + pat.length))

/-- Python str.replace(pat, rep): replace every non-overlapping occurrence of
pat, scanning left to right.  For an empty pattern Python inserts rep before
every character and at the end, which is reproduced here. -/
def replaceAll (pat rep s : Str) : Str :=
  if pat = [] then rep ++ (s.map (fun c => c :: rep)).flatten
  else replaceAllAux pat rep s.length s

/-- Replacement of only the first occurrence of pat, used to phrase the
spec reading of the colorized rendering. -/
def replaceFirst (pat rep s : Str) : Str :=
  match findOcc pat s with
  | none => s
  | some i => s.take i ++ rep ++ s.drop (i + pat.length)

/-- Python str.partition(pat) keeping only the part before the separator;
the whole string when pat does not occur. -/
def partitionBefore (pat s : Str) : Str :=
  match findOcc pat s with
  | none => s
  | some i => s.take i

/-- Removal of every newline, as performed by replace of a newline with
an empty string in the source. -/
def stripNL (s : Str) : Str := replaceAll ['\n'] [] s

/-- Python substring containment test. -/
def containsSub (pat s : Str) : Bool := (findOcc pat s).isSome

/-- Python str.partition(sep) last component: everything after the first
occurrence of sep, and empty when sep does not occur. -/
def partAfter (sep s : Str) : Str :=
  match findOcc sep s with
  | none => []
  | some i => s.drop (i + sep.length)

/-- Index of the last occurrence of a character. -/
def lastIdxOf (c : Char) : Str → Option Nat
  | [] => none
  | a :: rest =>
    match lastIdxOf c rest with
    | some j => some (j + 1)
    | none => if a = c then some 0 else none

/-- Python pathlib stem of a name that holds no path separator: the name
with its final dot suffix removed, where a dot at the first or the last
position does not count as a suffix. -/
def pathStem (name : Str) : Str :=
  match lastIdxOf '.' name with
  | none => name
  | some i => if 0 < i ∧ i + 1 < name.length then name.take i else name

section Lemmas

theorem take_len_app (a b : Str) : (a ++ b).take a.length = a := by
  induction a with
  | nil => simp
  | cons c cs ih => simp [ih]

theorem drop_len_app (a b : Str) : (a ++ b).drop a.length = b := by
  induction a with
  | nil => simp
  | cons c cs ih => simp [ih]

theorem findOcc_nil_pat (s : Str) : findOcc [] s = some 0 := by
  cases s with
  | nil => simp [findOcc]
  | cons c cs => simp [findOcc, ledBy]

theorem ledBy_length (p : Str) : ∀ s : Str, ledBy p s = true → p.length ≤ s.length := by
  induction p with
  | nil => intro s _; simp
  | cons a as ih =>
    intro s h
    cases s with
    | nil => simp [ledBy] at h
    | cons b bs =>
      simp [ledBy] at h
      have := ih bs h.2
      simpa using Nat.succ_le_succ this

theorem findOcc_bound (pat : Str) :
    ∀ (s : Str) (i : Nat), findOcc pat s = some i → i + pat.length ≤ s.length := by
  intro s
  induction s with
  | nil =>
    intro i h
    by_cases hp : pat = []
    · subst hp; simp [findOcc] at h; simp [h.symm]
    · simp [findOcc, hp] at h
  | cons c cs ih =>
    intro i h
    by_cases hpre : ledBy pat (c :: cs) = true
    · have hi : i = 0 := by simp [findOcc, hpre] at h; omega
      subst hi
      simpa using ledBy_length pat (c :: cs) hpre
    · simp [findOcc, hpre] at h
      obtain ⟨j, hj, hji⟩ := h
      have := ih j hj
      simp only [List.length_cons, ← hji]
      omega

theorem replaceAllAux_nil (pat rep : Str) (fuel : Nat) :
    replaceAllAux pat rep fuel [] = [] := by
  cases fuel <;> rfl

theorem replaceAllAux_some (pat rep : Str) (f : Nat) (s : Str) (i : Nat)
    (hs : s ≠ []) (hfo : findOcc pat s = some i) :
    replaceAllAux pat rep (f + 1) s
      = s.take i ++ rep ++ replaceAllAux pat rep f (s.drop (i + pat.length)) := by
  cases s with
  | nil => exact absurd rfl hs
  | cons c cs => simp only [replaceAllAux, hfo]

theorem replaceAllAux_none (pat rep : Str) (f : Nat) (s : Str)
    (hfo : findOcc pat s = none) : replaceAllAux pat rep f s = s := by
  cases s with
  | nil => simp [replaceAllAux_nil]
  | cons c cs =>
    cases f with
    | zero => rfl
    | succ f' => simp only [replaceAllAux, hfo]

theorem replaceAllAux_congr (pat rep : Str) (hp : pat ≠ []) :
    ∀ (f₁ f₂ : Nat) (s : Str), s.length ≤ f₁ → s.length ≤ f₂ →
      replaceAllAux pat rep f₁ s = replaceAllAux pat rep f₂ s := by
  intro f₁
  induction f₁ with
  | zero =>
    intro f₂ s h1 _
    have : s = [] := List.length_eq_zero.mp (Nat.le_zero.mp h1)
    subst this
    simp [replaceAllAux_nil]
  | succ f ih =>
    intro f₂ s h1 h2
    cases s with
    | nil => simp [replaceAllAux_nil]
    | cons c cs =>
      cases f₂ with
      | zero => simp at h2
      | succ f' =>
        cases hfo : findOcc pat (c :: cs) with
        | none => rw [replaceAllAux_none pat rep _ _ hfo, replaceAllAux_none pat rep _ _ hfo]
        | some i =>
          have hbound := findOcc_bound pat (c :: cs) i hfo
          have hplen : 1 ≤ pat.length := by
            cases pat with
            | nil => exact absurd rfl hp
            | cons _ _ => simp
          simp only [List.length_cons] at hbound h1 h2
          have hdrop : ((c :: cs).drop (i + pat.length)).length ≤ f := by
            simp only [List.length_drop, List.length_cons]
            omega
          have hdrop' : ((c :: cs).drop (i + pat.length)).length ≤ f' := by
            simp only [List.length_drop, List.length_cons]
            omega
          rw [replaceAllAux_some pat rep f _ i (by simp) hfo,
              replaceAllAux_some pat rep f' _ i (by simp) hfo,
              ih f' _ hdrop hdrop']

theorem replaceAll_none (pat rep s : Str) (h : findOcc pat s = none) :
    replaceAll pat rep s = s := by
  have hp : pat ≠ [] := by
    intro hc; subst hc; rw [findOcc_nil_pat] at h; exact Option.noConfusion h
  unfold replaceAll
  rw [if_neg hp]
  exact replaceAllAux_none pat rep s.length s h

theorem replaceAll_step (pat rep a b : Str) (hp : pat ≠ [])
    (h : findOcc pat (a ++ pat ++ b) = some a.length) :
    replaceAll pat rep (a ++ pat ++ b) = a ++ rep ++ replaceAll pat rep b := by
  have hplen : 1 ≤ pat.length := by
    cases pat with
    | nil => exact absurd rfl hp
    | cons _ _ => simp
  have hslen : (a ++ pat ++ b).length = a.length + pat.length + b.length := by
    simp only [List.length_append]
  unfold replaceAll
  rw [if_neg hp, if_neg hp]
  obtain ⟨m, hm⟩ : ∃ m, (a ++ pat ++ b).length = m + 1 := ⟨(a ++ pat ++ b).length - 1, by omega⟩
  have hsne : a ++ pat ++ b ≠ [] := by
    intro hc
    have h0 := congrArg List.length hc
    simp only [List.length_append, List.length_nil] at h0
    omega
  rw [hm, replaceAllAux_some pat rep m _ a.length hsne h]
  have htake : (a ++ pat ++ b).take a.length = a := by
    rw [List.append_assoc]
    exact take_len_app a (pat ++ b)
  have hdrop : (a ++ pat ++ b).drop (a.length + pat.length) = b := by
    have hlp : a.length + pat.length = (a ++ pat).length := by simp [List.length_append]
    rw [hlp]
    exact drop_len_app (a ++ pat) b
  rw [htake, hdrop]
  have hble : b.length ≤ m := by rw [hslen] at hm; omega
  rw [replaceAllAux_congr pat rep hp m b.length b hble (Nat.le_refl _)]

theorem partitionBefore_none (pat s : Str) (h : findOcc pat s = none) :
    partitionBefore pat s = s := by
  simp [partitionBefore, h]

theorem partitionBefore_decomp (pat a b : Str)
    (h : findOcc pat (a ++ pat ++ b) = some a.length) :
    partitionBefore pat (a ++ pat ++ b) = a := by
  simp only [partitionBefore, h]
  rw [List.append_assoc]
  exact take_len_app a (pat ++ b)

end Lemmas

/-! ANSI escape constants from the source. -/

def DEF : Str := "\x1b[0m".data
def BLD : Str := "\x1b[1m".data
def RED : Str := "\x1b[91m".data
def GRN : Str := "\x1b[92m".data
def YLW : Str := "\x1b[93m".data
def CYN : Str := "\x1b[96m".data

/-! Numeric logging levels of the Python logging module. -/

def DEBUG : Nat := 10
def INFO : Nat := 20
def WARNING : Nat := 30
def ERROR : Nat := 40
def CRITICAL : Nat := 50

/-- Lookup in the source's coloring dictionary with default DEF, as in
the expression that reads the dictionary with a fallback. -/
def colorsGet (level : Nat) : Str :=
  if level = DEBUG then CYN
  else if level = INFO then GRN
  else if level = WARNING then YLW
  else if level = ERROR then RED
  else if level = CRITICAL then BLD ++ RED
  else DEF

/-- Exception information carried by a log record when error context is
present: the class name of the exception, its str rendering, the line
number of the traceback, and the traceback text cached on the record by
the standard formatting pipeline. -/
structure ExcInfo where
  className : Str
  valueStr : Str
  tbLineno : Nat
  excText : Str
deriving DecidableEq

/-- Shallow model of a Python LogRecord restricted to the fields the
formatter reads.  The asctime field holds the date already rendered under
the configured date template, since calendar arithmetic is outside the
claims under verification. -/
structure LogRecord where
  asctime : Str
  msecs : Nat
  levelno : Nat
  levelname : Str
  process : Nat
  threadName : Str
  pathname : Str
  lineno : Nat
  funcName : Str
  msg : Str
  error : Option ExcInfo
deriving DecidableEq

/-- Formatter configuration: the optional custom format template, the date
template, and the ambient python library path read by relative_path when
the logged module is not inside a kaamiki tree. -/
structure FormatterCfg where
  datefmt : Str
  fmt : Option Str
  pythonLib : Str
deriving DecidableEq

/-! A small interpreter for the percent directives the logging module
substitutes into a format template.  Directive shape: a percent sign, a
parenthesised field name, an optional alignment or zero-padding spec, and
a conversion letter. -/

/-- Characters allowed in the width spec of a percent directive. -/
def isSpecChar (c : Char) : Bool := c = '-' || c.isDigit

/-- Numeric value of the digit characters of a width spec. -/
def digitsVal (ds : Str) : Nat := ds.foldl (fun acc c => acc * 10 + (c.toNat - 48)) 0

/-- Record field lookup by directive name; none for a name the model does
not know. -/
def fieldVal (r : LogRecord) (name : Str) : Option Str :=
  if name = ( "asctime".data) then some r.asctime
  else if name = ( "msecs".data) then some (natStr r.msecs)
  else if name = ( "levelname".data) then some r.levelname
  else if name = ( "process".data) then some (natStr r.process)
  else if name = ( "lineno".data) then some (natStr r.lineno)
  else if name = ( "message".data) then some r.msg
  else if name = ( "threadName".data) then some r.threadName
  else if name = ( "pathname".data) then some r.pathname
  else if name = ( "funcName".data) then some r.funcName
  else if name = ( "levelno".data) then some (natStr r.levelno)
  else none

/-- Rendering of one percent directive: conversion d pads with zeros when
the spec starts with 0, otherwise right-aligns; conversion s left-aligns
under a minus flag and right-aligns otherwise.  A directive whose field
name is unknown is left in place. -/
def renderDirective (r : LogRecord) (name spec : Str) (conv : Char) : Str :=
  match fieldVal r name with
  | none => '%' :: '(' :: (name ++ ')' :: (spec ++ [conv]))
  | some v =>
    let width := digitsVal (spec.filter Char.isDigit)
    if conv = 'd' then
      if spec.head? = some '0' then zfill width v else rjust width v
    else
      if spec.head? = some '-' then ljust width v else rjust width v

/-- Fuelled scanner applying percent directives left to right; plain
characters pass through unchanged. -/
def percentAux (r : LogRecord) : Nat → Str → Str
  | _, [] => []
  | 0, s => s
  | fuel + 1, '%' :: '(' :: rest =>
    let name := rest.takeWhile (fun c => c ≠ ')')
    let rest2 := (rest.dropWhile (fun c => c ≠ ')')).drop 1
    let spec := rest2.takeWhile isSpecChar
    match rest2.drop spec.length with
    | [] => '%' :: '(' :: rest
    | conv :: rest4 => renderDirective r name spec conv ++ percentAux r fuel rest4
  | fuel + 1, c :: rest => c :: percentAux r fuel rest

/-- Percent-style template application of the logging module. -/
def percentFormat (r : LogRecord) (fmt : Str) : Str := percentAux r fmt.length fmt

/-! Translation of the Formatter class. -/

/-- Translation of Formatter.relative_path: choose the separator kaamiki
when the absolute path mentions it and the ambient python library path
otherwise, keep what follows the separator without its leading character,
turn path separators into dots, and take the pathlib stem. -/
def relative_path (pythonLib abspath : Str) : Str :=
  let sep := if containsSub ( "kaamiki".data) abspath then "kaamiki".data else pythonLib
  pathStem (replaceAll ['/'] ['.'] ((partAfter sep abspath).drop 1))

/-- Thread column value of the default template: the literal main for the
main thread and the thread name itself otherwise. -/
def threadTok (r : LogRecord) : Str :=
  if r.threadName = ( "MainThread".data) then "main".data else r.threadName

/-- Module column value of the default template: the relative path derived
module name, shortened with an ellipsis when longer than 30 characters,
mirroring the conditional truncation of the source. -/
def moduleTok (cfg : FormatterCfg) (r : LogRecord) : Str :=
  let module := relative_path cfg.pythonLib r.pathname
  if module.length > 30 then
    module.take 27 ++ (if module.drop 27 = [] then [] else "...".data)
  else module

/-- Leading literal piece of the default template, before the thread column. -/
def dfltA : Str := "%(asctime)s.%(msecs)03d %(levelname)8s %(process)07d [".data

/-- Literal piece of the default template between the thread and module columns. -/
def dfltB : Str := "] ".data

/-- Trailing literal piece of the default template, after the module column. -/
def dfltC : Str := ":%(lineno)04d : %(message)s".data

/-- Result of substituting the thread and module columns into the default
template, as performed by str.format on the default format string. -/
def defaultFmtFilled (thd module : Str) : Str :=
  dfltA ++ rjust 15 thd ++ dfltB ++ rjust 30 module ++ dfltC

/-- Message line of the default template for a record. -/
def defaultLine (cfg : FormatterCfg) (r : LogRecord) : Str :=
  percentFormat r (defaultFmtFilled (threadTok r) (moduleTok cfg r))

/-- Message line before exception handling: the custom template applied
verbatim when one was supplied, and the default template with derived
thread and module columns otherwise. -/
def baseLineOf (cfg : FormatterCfg) (r : LogRecord) : Str :=
  match cfg.fmt with
  | some f => percentFormat r f
  | none => defaultLine cfg r

/-- Appending of the cached exception text to a formatted line, as the
standard Formatter does: a newline is inserted unless the line already
ends with one. -/
def appendExcText (line : Str) (e : ExcInfo) : Str :=
  if line.getLast? = some '\n' then line ++ e.excText else line ++ '\n' :: e.excText

/-- One-line exception summary built from the exception format template of
the source: class name, message, an optional function clause when the
error did not occur at module scope, and the traceback line number. -/
def excClause (r : LogRecord) (e : ExcInfo) : Str :=
  let func := if r.funcName ≠ ( "<module>".data)
    then "in ".data ++ r.funcName ++ "() ".data else []
  e.className ++ ": ".data ++ r.msg ++ " ".data ++ func ++ "on line ".data ++ natStr e.tbLineno

/-- Exception stage of Formatter.format: with no error the line passes
through; with an error the newlines are removed, each occurrence of the
str rendering of the exception value is replaced by the one-line summary,
and the line is cut before the first Traceback token. -/
def excStage (r : LogRecord) (line : Str) : Str :=
  match r.error with
  | none => line
  | some e =>
    partitionBefore ( "Traceback".data)
      (replaceAll e.valueStr (excClause r e) (stripNL (appendExcText line e)))

/-- Translation of Formatter.format: the message line followed by the
exception stage. -/
def formatterFormat (cfg : FormatterCfg) (r : LogRecord) : Str :=
  excStage r (baseLineOf cfg r)

/-- Translation of the stream handler format: the plain formatted line
with every occurrence of the level name replaced by the level color, the
level name and a reset code. -/
def streamFormat (cfg : FormatterCfg) (r : LogRecord) : Str :=
  replaceAll r.levelname (colorsGet r.levelno ++ r.levelname ++ DEF) (formatterFormat cfg r)

/-- Follows the spec words of the colorized variant: the plain rendering
with the color code inserted immediately before the level token and a
reset code immediately after it, nothing else changed; the level token is
the first occurrence of the level name in the line. -/
def c2specColorized (cfg : FormatterCfg) (r : LogRecord) : Str :=
  replaceFirst r.levelname (colorsGet r.levelno ++ r.levelname ++ DEF) (formatterFormat cfg r)

/-- Follows the spec words of the custom-template contract: the supplied
template applied verbatim with no module-name derivation, thread-name
substitution or truncation, then the exception-summary stage exactly as in
the default case. -/
def customRenderSpec (r : LogRecord) (f : Str) : Str :=
  excStage r (percentFormat r f)

/-! Translation of the Logger class constructor, restricted to the state
the claims are about: which file handler class is chosen, which minimum
level is configured, and which formatter and handler objects a
construction yields.  Filesystem side effects (directory creation, the
path of the log file) are not modelled. -/

/-- Construction arguments of Logger with the defaults of the source. -/
structure LoggerCfg where
  fmt : Option Str := none
  datefmt : Option Str := none
  level : Option Nat := none
  colored : Bool := true
  rotate : Bool := true
  rotate_by : Str := "size".data
  maxBytes : Nat := 1000000
  whenArg : Str := "h".data
  interval : Nat := 1
  utc : Bool := false
  backupCount : Nat := 5
  delay : Bool := false
deriving DecidableEq

/-- File handler classes a construction can choose. -/
inductive FileHandlerKind where
  | timedRotating (whenArg : Str) (interval : Nat) (backupCount : Nat) (utc : Bool)
  | rotating (maxBytes : Nat) (backupCount : Nat)
  | plain
deriving DecidableEq

/-- File handler selection of the constructor: timed rotation when the
rotate flag is set and the rotate-by string equals time, size rotation for
every other rotate-by value under the rotate flag, and a plain append
handler when rotation is disabled. -/
def chooseFileHandler (cfg : LoggerCfg) : FileHandlerKind :=
  if cfg.rotate then
    if cfg.rotate_by = ( "time".data) then
      .timedRotating cfg.whenArg cfg.interval cfg.backupCount cfg.utc
    else .rotating cfg.maxBytes cfg.backupCount
  else .plain

/-- Minimum level resolution of the constructor: the argument when given
and truthy, and DEBUG otherwise (a falsy zero also yields DEBUG, as in the
source's conditional expression). -/
def levelOf (cfg : LoggerCfg) : Nat :=
  match cfg.level with
  | none => DEBUG
  | some 0 => DEBUG
  | some l => l

/-- Allocation state threading object identities through constructions:
a fresh-id counter and the caches of the Neo metaclass for the formatter
and stream handler classes. -/
structure AllocState where
  nextId : Nat
  formatterInst : Option Nat
  streamInst : Option Nat
deriving DecidableEq

/-- Modelled from the spec and the in-source documentation: the Neo
metaclass imported from the kaamiki package is not under src; the stream
handler docstring describes a taste of the Singleton design pattern, so a
class under Neo returns its cached instance when one exists and otherwise
allocates a fresh one and caches it. -/
def neoNew (cache : Option Nat) (next : Nat) : Nat × Option Nat × Nat :=
  match cache with
  | some i => (i, some i, next)
  | none => (next, some next, next + 1)

/-- Observable identity content of one constructed Logger. -/
structure LoggerObj where
  loggerId : Nat
  formatterId : Nat
  streamId : Nat
  fileId : Nat
  file : FileHandlerKind
  level : Nat
deriving DecidableEq

/-- Translation of the constructor's object creation order: the formatter
through Neo, then the stream handler (through Neo when colorizing, a fresh
plain stream handler otherwise), then a fresh file handler of the chosen
class, with the Logger instance itself always fresh. -/
def mkLogger (cfg : LoggerCfg) (st : AllocState) : LoggerObj × AllocState :=
  match neoNew st.formatterInst st.nextId with
  | (fid, fcache, n1) =>
    match (if cfg.colored then neoNew st.streamInst n1 else (n1, st.streamInst, n1 + 1)) with
    | (sid, scache, n2) =>
      (⟨n2 + 1, fid, sid, n2, chooseFileHandler cfg, levelOf cfg⟩,
       ⟨n2 + 2, fcache, scache⟩)

/-- Observable effect of one emit call: the line formatted for the file
sink and the line formatted for the console sink, or none of either when
the record was dropped. -/
structure EmitEffect where
  didFormat : Bool
  fileOut : Option Str
  consoleOut : Option Str
deriving DecidableEq

/-- Modelled from the spec: the level short circuit of the standard
logging module's Logger, which is not under src; a record whose level is
strictly below the configured minimum is dropped before any formatting or
sink output, and otherwise the record is rendered once per sink. -/
def emit (lg : LoggerObj) (cfg : FormatterCfg) (r : LogRecord) : EmitEffect :=
  if r.levelno < lg.level then ⟨false, none, none⟩
  else ⟨true, some (formatterFormat cfg r), some (streamFormat cfg r)⟩

/-- State of the size-rotating file sink: bytes in the active file and the
number of rollovers performed. -/
structure SinkState where
  size : Nat
  rotations : Nat
deriving DecidableEq

/-- Modelled from the spec: the rollover decision of the size-based
rotating file handler of the standard library, which is not under src;
rotate when maxBytes is positive and the current size plus the incoming
payload exceeds maxBytes. -/
def shouldRollover (maxBytes size payload : Nat) : Bool :=
  decide (0 < maxBytes) && decide (maxBytes < size + payload)

/-- One write against the size-rotating sink: a rollover resets the active
file to the payload alone, otherwise the payload is appended. -/
def sinkWrite (maxBytes : Nat) (st : SinkState) (payload : Nat) : SinkState :=
  if shouldRollover maxBytes st.size payload
  then ⟨payload, st.rotations + 1⟩
  else ⟨st.size + payload, st.rotations⟩

/-- Folding a sequence of writes through the size-rotating sink. -/
def sinkRun (maxBytes : Nat) (st : SinkState) : List Nat → SinkState
  | [] => st
  | p :: ps => sinkRun maxBytes (sinkWrite maxBytes st p) ps

section HelperLemmas

theorem mkLogger_file (cfg : LoggerCfg) (st : AllocState) :
    (mkLogger cfg st).1.file = chooseFileHandler cfg := by
  cases hf : st.formatterInst <;> cases hs : st.streamInst <;> cases hc : cfg.colored <;>
    simp [mkLogger, neoNew, hf, hs, hc]

theorem mkLogger_level (cfg : LoggerCfg) (st : AllocState) :
    (mkLogger cfg st).1.level = levelOf cfg := by
  cases hf : st.formatterInst <;> cases hs : st.streamInst <;> cases hc : cfg.colored <;>
    simp [mkLogger, neoNew, hf, hs, hc]

theorem sinkRun_zero (ws : List Nat) :
    ∀ s k : Nat, sinkRun 0 ⟨s, k⟩ ws = ⟨s + ws.sum, k⟩ := by
  induction ws with
  | nil => intro s k; simp [sinkRun]
  | cons p ps ih =>
    intro s k
    simp [sinkRun, sinkWrite, shouldRollover, ih, List.sum_cons, Nat.add_assoc]

end HelperLemmas

/-! Concrete sample data used by witness and counterexample theorems. -/

/-- Sample formatter configuration with the default templates. -/
def cfgK : FormatterCfg :=
  { datefmt := "%b %d, %Y %H:%M:%S".data, fmt := none,
    pythonLib := "/usr/lib/python3/site-packages".data }

/-- Sample error-level record whose message does not mention the level name. -/
def recC2w : LogRecord :=
  { asctime := "Oct 12, 2026 10:00:00".data, msecs := 42, levelno := 40,
    levelname := "ERROR".data, process := 1234,
    threadName := "MainThread".data,
    pathname := "/opt/kaamiki/utils/disk.py".data, lineno := 77,
    funcName := "read".data, msg := "disk read finished".data, error := none }

/-- Sample error-level record whose message mentions the level name. -/
def recC2x : LogRecord :=
  { recC2w with msg := "ERROR while reading".data }

/-- Exception context of the typical exception-logging call: the logged
message is the str rendering of the exception value. -/
def excC3w : ExcInfo :=
  { className := "ZeroDivisionError".data,
    valueStr := "division by zero".data, tbLineno := 9,
    excText := "Traceback (most recent call last):\n  File \"calc.py\", line 9, in divide\nZeroDivisionError: division by zero".data }

/-- Record carrying excC3w whose message equals the exception text. -/
def recC3w : LogRecord :=
  { asctime := "Oct 12, 2026 11:30:00".data, msecs := 7, levelno := 40,
    levelname := "ERROR".data, process := 99,
    threadName := "MainThread".data,
    pathname := "/opt/kaamiki/math/calc.py".data, lineno := 9,
    funcName := "divide".data, msg := "division by zero".data,
    error := some excC3w }

/-- Record carrying error context whose message differs from the
exception text. -/
def recC3x : LogRecord :=
  { recC3w with lineno := 12, msg := "boom".data }

/-- Line portion preceding the message slot of recC3w, after newline
stripping. -/
def preC3w : Str :=
  "Oct 12, 2026 11:30:00.007    ERROR 0000099 [           main]                      math.calc:0009 : ".data

/-- Traceback tail following the message slot of recC3w, after newline
stripping. -/
def tbRestC3w : Str :=
  "Traceback (most recent call last):  File \"calc.py\", line 9, in divideZeroDivisionError: division by zero".data

/-- Remainder of the traceback tail of recC3w after its leading Traceback
token, once the exception value text inside it has been replaced by the
one-line summary. -/
def sC3w : Str :=
  " (most recent call last):  File \"calc.py\", line 9, in divideZeroDivisionError: ZeroDivisionError: division by zero in divide() on line 9".data

/-- Plain-line portion preceding the level token of recC2w. -/
def preC2w : Str := "Oct 12, 2026 10:00:00.042    ".data

/-- Plain-line portion following the level token of recC2w. -/
def postC2w : Str :=
  " 0001234 [           main]                     utils.disk:0077 : disk read finished".data

/-! Claim theorems. -/

/-- C1 counterexample: constructing a Logger with the rotate flag set and
an unknown rotation mode succeeds and selects size-based rotation with the
default thresholds; no configuration error is raised at construction time,
contradicting the fail-fast behaviour the claim states. -/
theorem c1_counterexample :
    (mkLogger { rotate_by := "banana".data } ⟨0, none, none⟩).1.file
      = FileHandlerKind.rotating 1000000 5 := by decide

/-- C1 (amended): for every construction with the rotate flag set and a
rotation mode other than time (including modes that are neither size nor
time), the constructor silently selects the size-based rotating file
handler with the configured thresholds instead of raising an error. -/
theorem c1_rotate_fallback (cfg : LoggerCfg) (st : AllocState)
    (h1 : cfg.rotate = true) (h2 : cfg.rotate_by ≠ "time".data) :
    (mkLogger cfg st).1.file = FileHandlerKind.rotating cfg.maxBytes cfg.backupCount := by
  rw [mkLogger_file]
  simp [chooseFileHandler, h1, h2]

/-- Witness for C1: the amended theorem applied to a concrete unknown
rotation mode. -/
theorem c1_rotate_fallback_witness :
    (mkLogger { rotate_by := "sizzle".data } ⟨0, none, none⟩).1.file
      = FileHandlerKind.rotating 1000000 5 :=
  c1_rotate_fallback { rotate_by := "sizzle".data } ⟨0, none, none⟩ rfl (by decide)

/-- C4: in the default-template rendering, a source-path-derived module
name longer than 30 characters is rendered as its first 27 characters
followed by an ellipsis, 30 characters in total, and a module name of 30
or fewer characters is rendered unchanged. -/
theorem c4_module_truncation (cfg : FormatterCfg) (r : LogRecord) :
    (30 < (relative_path cfg.pythonLib r.pathname).length →
      moduleTok cfg r = (relative_path cfg.pythonLib r.pathname).take 27 ++ "...".data
      ∧ (moduleTok cfg r).length = 30)
    ∧ ( (relative_path cfg.pythonLib r.pathname).length ≤ 30 →
      moduleTok cfg r = relative_path cfg.pythonLib r.pathname) := by
  constructor
  · intro h
    have hdropne : (relative_path cfg.pythonLib r.pathname).drop 27 ≠ [] := by
      intro hc
      have h0 := congrArg List.length hc
      simp only [List.length_drop, List.length_nil] at h0
      omega
    have heq : moduleTok cfg r
        = (relative_path cfg.pythonLib r.pathname).take 27 ++ "...".data := by
      simp [moduleTok, h, hdropne]
    refine ⟨heq, ?_⟩
    rw [heq]
    simp only [List.length_append, List.length_take, List.length_cons, List.length_nil]
    omega
  · intro h
    have hnot : ¬ 30 < (relative_path cfg.pythonLib r.pathname).length := by omega
    simp [moduleTok, hnot]

/-- Witness for C4: a concrete kaamiki source path whose derived module
name has 35 characters is truncated to 27 characters plus the ellipsis. -/
theorem c4_module_truncation_witness :
    30 < (relative_path cfgK.pythonLib
        ( "/opt/kaamiki/pkg/abcdefghijklmnopqrstuvwxyz01234.py".data)).length
    ∧ moduleTok cfgK
        { recC2w with pathname := "/opt/kaamiki/pkg/abcdefghijklmnopqrstuvwxyz01234.py".data }
      = (relative_path cfgK.pythonLib
          ( "/opt/kaamiki/pkg/abcdefghijklmnopqrstuvwxyz01234.py".data)).take 27 ++ "...".data :=
  ⟨by decide,
   ((c4_module_truncation cfgK
      { recC2w with pathname := "/opt/kaamiki/pkg/abcdefghijklmnopqrstuvwxyz01234.py".data }).1
     (by decide)).1⟩

/-- C5: under size-based rotation configured with maxBytes zero, no
sequence of writes ever triggers a rollover: the rotation count never
changes and every payload is appended to the active file.  The rollover
decision itself lives in the standard library handler and is modelled from
the spec. -/
theorem c5_maxbytes_zero_never_rotates (cfg : LoggerCfg) (st : AllocState)
    (ws : List Nat) (s k : Nat)
    (h1 : cfg.rotate = true) (h2 : cfg.rotate_by ≠ "time".data)
    (h3 : cfg.maxBytes = 0) :
    (mkLogger cfg st).1.file = FileHandlerKind.rotating 0 cfg.backupCount
    ∧ sinkRun cfg.maxBytes ⟨s, k⟩ ws = ⟨s + ws.sum, k⟩ := by
  constructor
  · rw [mkLogger_file]
    simp [chooseFileHandler, h1, h2, h3]
  · rw [h3]
    exact sinkRun_zero ws s k

/-- Witness for C5: three large writes against a maxBytes-zero sink leave
the rotation count at zero and accumulate all bytes. -/
theorem c5_maxbytes_zero_never_rotates_witness :
    (mkLogger { maxBytes := 0 } ⟨0, none, none⟩).1.file = FileHandlerKind.rotating 0 5
    ∧ sinkRun (LoggerCfg.maxBytes { maxBytes := 0 }) ⟨0, 0⟩ [999999, 999999, 5]
        = ⟨0 + [999999, 999999, 5].sum, 0⟩ :=
  c5_maxbytes_zero_never_rotates { maxBytes := 0 } ⟨0, none, none⟩
    [999999, 999999, 5] 0 0 rfl (by decide) rfl

/-- C6: a record whose level is strictly below the configured minimum is
dropped by emit before any formatting work and with no output on either
sink; the drop path returns normally.  The level short circuit lives in
the standard logging module and is modelled from the spec. -/
theorem c6_level_short_circuit (cfg : LoggerCfg) (fcfg : FormatterCfg)
    (st : AllocState) (r : LogRecord)
    (h : r.levelno < levelOf cfg) :
    emit (mkLogger cfg st).1 fcfg r = ⟨false, none, none⟩ := by
  have hl := mkLogger_level cfg st
  simp [emit, hl, h]

/-- Witness for C6: a DEBUG record against a WARNING-level logger is
dropped with no formatting and no sink output. -/
theorem c6_level_short_circuit_witness :
    emit (mkLogger { level := some 30 } ⟨0, none, none⟩).1 cfgK
        { recC2w with levelno := 10 }
      = ⟨false, none, none⟩ :=
  c6_level_short_circuit { level := some 30 } cfgK ⟨0, none, none⟩
    { recC2w with levelno := 10 } (by decide)

/-- C7 counterexample: two Logger constructions with the default
configuration yield two distinct Logger instances that share one formatter
object and one colorized stream handler object, because both classes are
singletons under the Neo metaclass; this contradicts the claimed exclusive
ownership. -/
theorem c7_counterexample :
    (mkLogger {} ⟨0, none, none⟩).1.loggerId
        ≠ (mkLogger {} (mkLogger {} ⟨0, none, none⟩).2).1.loggerId
    ∧ (mkLogger {} ⟨0, none, none⟩).1.formatterId
        = (mkLogger {} (mkLogger {} ⟨0, none, none⟩).2).1.formatterId
    ∧ (mkLogger {} ⟨0, none, none⟩).1.streamId
        = (mkLogger {} (mkLogger {} ⟨0, none, none⟩).2).1.streamId := by
  refine ⟨by decide, by decide, by decide⟩

/-- C7 (amended): every pair of consecutive Logger constructions yields
distinct Logger instances and distinct file handler objects, but the two
instances always share the one formatter object, and they share the one
colorized stream handler object whenever both constructions colorize. -/
theorem c7_singleton_sharing (cfg1 cfg2 : LoggerCfg) (st : AllocState) :
    (mkLogger cfg1 st).1.loggerId ≠ (mkLogger cfg2 (mkLogger cfg1 st).2).1.loggerId
    ∧ (mkLogger cfg1 st).1.formatterId
        = (mkLogger cfg2 (mkLogger cfg1 st).2).1.formatterId
    ∧ (cfg1.colored = true → cfg2.colored = true →
        (mkLogger cfg1 st).1.streamId = (mkLogger cfg2 (mkLogger cfg1 st).2).1.streamId)
    ∧ (mkLogger cfg1 st).1.fileId ≠ (mkLogger cfg2 (mkLogger cfg1 st).2).1.fileId := by
  cases hf : st.formatterInst <;> cases hs : st.streamInst <;>
    cases hc1 : cfg1.colored <;> cases hc2 : cfg2.colored <;>
      simp [mkLogger, neoNew, hf, hs, hc1, hc2] <;> omega

/-- Witness for C7: the amended theorem at the default configuration and
the empty allocation state. -/
theorem c7_singleton_sharing_witness :
    (mkLogger {} ⟨5, none, none⟩).1.streamId
      = (mkLogger {} (mkLogger {} ⟨5, none, none⟩).2).1.streamId :=
  (c7_singleton_sharing {} {} ⟨5, none, none⟩).2.2.1 rfl rfl

/-- C8: a custom format template supplied at construction is applied
verbatim, with no module-name derivation, thread substitution or
truncation, while the exception-summary stage still applies exactly as in
the default-template case, which routes through the same stage. -/
theorem c8_custom_template (cfg : FormatterCfg) (r : LogRecord) (f : Str)
    (h : cfg.fmt = some f) :
    formatterFormat cfg r = customRenderSpec r f
    ∧ (∀ cfg' : FormatterCfg, cfg'.fmt = none →
        formatterFormat cfg' r = excStage r (defaultLine cfg' r)) := by
  constructor
  · simp [formatterFormat, baseLineOf, h, customRenderSpec]
  · intro cfg' h'
    simp [formatterFormat, baseLineOf, h']

/-- Witness for C8: a concrete custom template rendered verbatim. -/
theorem c8_custom_template_witness :
    formatterFormat { cfgK with fmt := some ("%(levelname)s - %(message)s".data) } recC2w
      = customRenderSpec recC2w ("%(levelname)s - %(message)s".data) :=
  (c8_custom_template { cfgK with fmt := some ("%(levelname)s - %(message)s".data) }
    recC2w ("%(levelname)s - %(message)s".data) rfl).1

/-- C9: formatter rendering is a pure, deterministic function of the
record and the formatter configuration: equal records under equal
configuration produce identical output. -/
theorem c9_formatter_deterministic (cfg cfg' : FormatterCfg) (r r' : LogRecord)
    (h1 : cfg.fmt = cfg'.fmt) (h2 : cfg.datefmt = cfg'.datefmt)
    (h3 : cfg.pythonLib = cfg'.pythonLib) (h4 : r = r') :
    formatterFormat cfg r = formatterFormat cfg' r' := by
  obtain ⟨d, f, p⟩ := cfg
  obtain ⟨d', f', p'⟩ := cfg'
  subst h4
  have e1 : f = f' := h1
  have e2 : d = d' := h2
  have e3 : p = p' := h3
  subst e1; subst e2; subst e3
  rfl

/-- Witness for C9: two renderings of the same record under equal
configurations coincide. -/
theorem c9_formatter_deterministic_witness :
    formatterFormat cfgK recC2w = formatterFormat cfgK recC2w :=
  c9_formatter_deterministic cfgK cfgK recC2w recC2w rfl rfl rfl rfl

/-- C10: in the default-template rendering the thread column of a record
whose thread name is MainThread is the literal main, right-aligned to 15
characters as eleven spaces followed by main; every other thread name is
placed in the column verbatim under the same right alignment. -/
theorem c10_thread_column (cfg : FormatterCfg) (r : LogRecord) (h : cfg.fmt = none) :
    (r.threadName = "MainThread".data →
      formatterFormat cfg r
        = excStage r (percentFormat r
            (dfltA ++ (List.replicate 11 ' ' ++ "main".data) ++ dfltB
              ++ rjust 30 (moduleTok cfg r) ++ dfltC)))
    ∧ (r.threadName ≠ "MainThread".data →
      formatterFormat cfg r
        = excStage r (percentFormat r
            (dfltA ++ rjust 15 r.threadName ++ dfltB
              ++ rjust 30 (moduleTok cfg r) ++ dfltC))) := by
  have hmain : rjust 15 ("main".data) = List.replicate 11 ' ' ++ "main".data := by decide
  constructor
  · intro ht
    simp [formatterFormat, baseLineOf, h, defaultLine, defaultFmtFilled, threadTok, ht, hmain]
  · intro ht
    simp [formatterFormat, baseLineOf, h, defaultLine, defaultFmtFilled, threadTok, ht]

/-- Witness for C10: the main-thread record renders with the literal main
thread column. -/
theorem c10_thread_column_witness :
    formatterFormat cfgK recC2w
      = excStage recC2w (percentFormat recC2w
          (dfltA ++ (List.replicate 11 ' ' ++ "main".data) ++ dfltB
            ++ rjust 30 (moduleTok cfgK recC2w) ++ dfltC)) :=
  (c10_thread_column cfgK recC2w rfl).1 rfl

/-- C2 counterexample: for an ERROR record whose message itself contains
the word ERROR, the colorized rendering differs from the spec reading in
which only the level token is wrapped: the stream handler also wraps the
occurrence inside the message. -/
theorem c2_counterexample :
    streamFormat cfgK recC2x ≠ c2specColorized cfgK recC2x := by decide

/-- C2 (amended): the colorized rendering wraps every occurrence of the
level name in the level color and a reset code; in particular, whenever
the level name occurs in the plain rendering only as the level token, the
colorized rendering equals the plain rendering with the color code
inserted immediately before the level token and a reset code immediately
after it and nothing else changed.  The color keyed by each level is the
one the claim lists. -/
theorem c2_color_wraps_level (cfg : FormatterCfg) (r : LogRecord) (pre post : Str)
    (hdec : formatterFormat cfg r = pre ++ r.levelname ++ post)
    (hfirst : findOcc r.levelname (formatterFormat cfg r) = some pre.length)
    (hrest : findOcc r.levelname post = none) :
    streamFormat cfg r = pre ++ (colorsGet r.levelno ++ r.levelname ++ DEF) ++ post
    ∧ colorsGet DEBUG = CYN ∧ colorsGet INFO = GRN ∧ colorsGet WARNING = YLW
    ∧ colorsGet ERROR = RED ∧ colorsGet CRITICAL = BLD ++ RED := by
  have hp : r.levelname ≠ [] := by
    intro hc
    rw [hc, findOcc_nil_pat] at hrest
    exact Option.noConfusion hrest
  refine ⟨?_, rfl, rfl, rfl, rfl, rfl⟩
  rw [hdec] at hfirst
  rw [streamFormat, hdec, replaceAll_step _ _ _ _ hp hfirst,
      replaceAll_none _ _ _ hrest]

/-- Witness for C2: on a record whose message does not mention the level
name, the colorized line is the plain line with the red code before the
level token and a reset after it. -/
theorem c2_color_wraps_level_witness :
    streamFormat cfgK recC2w
      = preC2w ++ (colorsGet recC2w.levelno ++ recC2w.levelname ++ DEF) ++ postC2w :=
  (c2_color_wraps_level cfgK recC2w preC2w postC2w
    (by decide) (by decide) (by decide)).1

/-- C3 counterexample: a record carrying error context whose message is
not the str rendering of the exception value renders with no appended
exception summary at all: the output equals the plain base line and the
summary clause occurs nowhere in it, contradicting the claim that an
error record always gains exactly one summary clause. -/
theorem c3_counterexample :
    (recC3x.error).isSome = true
    ∧ formatterFormat cfgK recC3x = baseLineOf cfgK recC3x
    ∧ findOcc (excClause recC3x excC3w) (formatterFormat cfgK recC3x) = none := by
  refine ⟨rfl, by decide, by decide⟩

/-- C3 (amended): a record with no error context renders as the plain
base line with no exception-summary suffix.  A record with error context
has its newlines stripped, every occurrence of the str rendering of the
exception value replaced by the one-line summary, and the line cut before
the first Traceback token; consequently, whenever the stripped line
decomposes at the first occurrence of the exception text ahead of the
traceback (the typical exception-logging call, whose message is the
exception text), the rendering is the line head followed by exactly one
summary clause.  The summary clause carries the function clause exactly
when the error did not originate at module scope. -/
theorem c3_exception_summary (cfg : FormatterCfg) (r : LogRecord) :
    (r.error = none → formatterFormat cfg r = baseLineOf cfg r)
    ∧ (∀ (e : ExcInfo) (pre tbRest S : Str),
        r.error = some e →
        e.valueStr ≠ [] →
        stripNL (appendExcText (baseLineOf cfg r) e) = pre ++ e.valueStr ++ tbRest →
        findOcc e.valueStr (stripNL (appendExcText (baseLineOf cfg r) e))
          = some pre.length →
        replaceAll e.valueStr (excClause r e) tbRest = "Traceback".data ++ S →
        findOcc ("Traceback".data)
            (pre ++ excClause r e ++ ("Traceback".data ++ S))
          = some (pre.length + (excClause r e).length) →
        formatterFormat cfg r = pre ++ excClause r e)
    ∧ (∀ e : ExcInfo, r.funcName ≠ "<module>".data →
        excClause r e = e.className ++ ": ".data ++ r.msg ++ " ".data
          ++ ("in ".data ++ r.funcName ++ "() ".data) ++ "on line ".data
          ++ natStr e.tbLineno)
    ∧ (∀ e : ExcInfo, r.funcName = "<module>".data →
        excClause r e = e.className ++ ": ".data ++ r.msg ++ " ".data
          ++ "on line ".data ++ natStr e.tbLineno) := by
  refine ⟨?_, ?_, ?_, ?_⟩
  · intro h
    simp [formatterFormat, excStage, h]
  · intro e pre tbRest S he hne hdec hfirst hrep htb
    have hform : formatterFormat cfg r
        = partitionBefore ("Traceback".data)
            (replaceAll e.valueStr (excClause r e)
              (stripNL (appendExcText (baseLineOf cfg r) e))) := by
      simp [formatterFormat, excStage, he]
    rw [hform, hdec]
    rw [hdec] at hfirst
    rw [replaceAll_step _ _ _ _ hne hfirst, hrep]
    have htb' : findOcc ("Traceback".data)
        ((pre ++ excClause r e) ++ "Traceback".data ++ S)
          = some (pre ++ excClause r e).length := by
      rw [List.length_append]
      simpa [List.append_assoc] using htb
    have := partitionBefore_decomp ("Traceback".data) (pre ++ excClause r e) S htb'
    simpa [List.append_assoc] using this
  · intro e h
    simp [excClause, h]
  · intro e h
    simp [excClause, h]

/-- Witness for C3: the typical exception-logging record, whose message is
the exception text, renders as the line head followed by exactly one
summary clause with the function clause present. -/
theorem c3_exception_summary_witness :
    formatterFormat cfgK recC3w = preC3w ++ excClause recC3w excC3w :=
  (c3_exception_summary cfgK recC3w).2.1 excC3w preC3w tbRestC3w sC3w
    rfl (by decide) (by decide) (by decide) (by decide) (by decide)

end Kaamiki
